import Mathlib

/-!
Verification of the `build_html` HTML-generation library.

The page-level code (`HtmlPage`, its `Html` impl, `HtmlContainer` impl,
`Default` impl, `Display` impl, `new`, `add_title`) is embedded from
`src/src/lib.rs`.  The private modules `content`, `containers` and
`attributes` are not present in the source tree; the element variants,
their rendering forms, the escaping rule and the convenience builder
methods are modelled from the specification where noted.
-/

set_option autoImplicit false

namespace BuildHtml

/-- Modelled from the spec: the escaping rule of the missing `content` /
`attributes` modules.  One input character maps to its entity replacement:
`&` to `&amp;`, `<` to `&lt;`, `>` to `&gt;`, and, in attribute contexts
only (`inAttr = true`), `"` to `&quot;`; every other character passes
through unchanged. -/
def escapeChar (inAttr : Bool) (c : Char) : List Char :=
  if c = '&' then ['&', 'a', 'm', 'p', ';']
  else if c = '<' then ['&', 'l', 't', ';']
  else if c = '>' then ['&', 'g', 't', ';']
  else if inAttr ∧ c = '"' then ['&', 'q', 'u', 'o', 't', ';']
  else [c]

/-- Escape every character of a character list, in order. -/
def escapeList (inAttr : Bool) : List Char → List Char
  | [] => []
  | c :: cs => escapeChar inAttr c ++ escapeList inAttr cs

/-- Escaping for element text content (`&`, `<`, `>`). -/
def escapeText (s : String) : String :=
  ⟨escapeList false s.data⟩

/-- Escaping for attribute values (`&`, `<`, `>`, `"`). -/
def escapeAttr (s : String) : String :=
  ⟨escapeList true s.data⟩

/-- Modelled from the spec: the enumerated set of semantic/structural HTML
container tags of the missing `containers` module. -/
inductive ContainerType where
  | div
  | article
  | sectionTag
  | headerTag
  | footer
  | nav
  | mainTag
  | aside
  deriving DecidableEq, Repr

/-- The lowercase HTML tag name mapped from a `ContainerType` variant. -/
def ContainerType.tag : ContainerType → String
  | .div => "div"
  | .article => "article"
  | .sectionTag => "section"
  | .headerTag => "header"
  | .footer => "footer"
  | .nav => "nav"
  | .mainTag => "main"
  | .aside => "aside"

/-- Modelled from the spec: the closed set of element variants behind the
`Box<dyn Html>` trait objects stored by `HtmlPage` — the `HeadContent`
variants of the missing `content` module (`Title`, `Meta`, `Link`,
`Style`), the body content primitives, and `Container` of the missing
`containers` module.  Only `Title` is visible in `src/src/lib.rs`
(`HeadContent::Title { content }`); its text field is stored verbatim. -/
inductive Element where
  | title (text : String)
  | meta (name value : String)
  | link (rel href : String)
  | style (css : String)
  | header (level : Nat) (text : String)
  | paragraph (text : String)
  | anchor (href text : String)
  | image (src alt : String)
  | list (ordered : Bool) (items : List String)
  | raw (html : String)
  | text (t : String)
  | container (ctype : ContainerType) (attrs : List (String × String))
      (children : List Element)

/-- Modelled from the spec: attribute rendering of the missing
`attributes` module — empty string when there are no attributes, otherwise
a leading space and space-separated `key="escaped value"` pairs in store
order. -/
def renderAttrs (attrs : List (String × String)) : String :=
  attrs.foldl (fun acc kv => acc ++ " " ++ kv.1 ++ "=\"" ++ escapeAttr kv.2 ++ "\"") ""

/-- Render the items of a list element, each as `<li>escaped item</li>`,
in order. -/
def renderItems : List String → String
  | [] => ""
  | i :: is => "<li>" ++ escapeText i ++ "</li>" ++ renderItems is

mutual

/-- Modelled from the spec: `Html::to_html_string` for each element
variant — the canonical tag forms of §4.4 of the specification, with text
stored verbatim and escaped here at render time, raw content passed
through unmodified, and void elements (`meta`, `link`, `img`) receiving
no closing tag. -/
def Element.to_html_string : Element → String
  | .title t => "<title>" ++ escapeText t ++ "</title>"
  | .meta n v => "<meta name=\"" ++ escapeAttr n ++ "\" content=\"" ++ escapeAttr v ++ "\">"
  | .link r h => "<link rel=\"" ++ escapeAttr r ++ "\" href=\"" ++ escapeAttr h ++ "\">"
  | .style c => "<style>" ++ escapeText c ++ "</style>"
  | .header l t => "<h" ++ Nat.repr l ++ ">" ++ escapeText t ++ "</h" ++ Nat.repr l ++ ">"
  | .paragraph t => "<p>" ++ escapeText t ++ "</p>"
  | .anchor h t => "<a href=\"" ++ escapeAttr h ++ "\">" ++ escapeText t ++ "</a>"
  | .image s a => "<img src=\"" ++ escapeAttr s ++ "\" alt=\"" ++ escapeAttr a ++ "\">"
  | .list true items => "<ol>" ++ renderItems items ++ "</ol>"
  | .list false items => "<ul>" ++ renderItems items ++ "</ul>"
  | .raw h => h
  | .text t => escapeText t
  | .container ct attrs children =>
      "<" ++ ct.tag ++ renderAttrs attrs ++ ">" ++ renderChildren children
        ++ "</" ++ ct.tag ++ ">"

/-- Render a container's children in insertion order. -/
def renderChildren : List Element → String
  | [] => ""
  | e :: es => e.to_html_string ++ renderChildren es

end

/-- The document root of `src/src/lib.rs`: separate ordered `head` and
`body` sequences of elements. -/
structure HtmlPage where
  head : List Element
  body : List Element

/-- The fold of `HtmlPage::to_html_string` over one child sequence:
`iter().map(to_html_string).fold(String::new(), |acc, next| acc + &next)`. -/
def renderFold (l : List Element) : String :=
  (l.map Element.to_html_string).foldl (fun acc next => acc ++ next) ""

/-- `impl Html for HtmlPage` of `src/src/lib.rs`: fold the head renderings
and the body renderings, then interpolate them into the literal envelope
`<!DOCTYPE html><html><head>{head}</head><body>{body}</body></html>`. -/
def HtmlPage.to_html_string (p : HtmlPage) : String :=
  "<!DOCTYPE html><html><head>" ++ renderFold p.head ++ "</head><body>"
    ++ renderFold p.body ++ "</body></html>"

/-- `HtmlPage::new` of `src/src/lib.rs`: empty head, empty body. -/
def HtmlPage.new : HtmlPage :=
  { head := [], body := [] }

/-- `impl Default for HtmlPage` of `src/src/lib.rs`: delegates to
`HtmlPage::new`. -/
def HtmlPage.default : HtmlPage :=
  HtmlPage.new

/-- `HtmlPage::add_title` of `src/src/lib.rs`: build a
`HeadContent::Title` whose content is the given text, push it onto the
head sequence, return the page. -/
def HtmlPage.add_title (p : HtmlPage) (title_text : String) : HtmlPage :=
  { p with head := p.head ++ [Element.title title_text] }

/-- `impl HtmlContainer for HtmlPage` of `src/src/lib.rs`: `add_html`
pushes the given element onto the body sequence and returns the page. -/
def HtmlPage.add_html (p : HtmlPage) (html : Element) : HtmlPage :=
  { p with body := p.body ++ [html] }

/-- `impl Display for HtmlPage` of `src/src/lib.rs`: `fmt` writes
`self.to_html_string()` to the formatter; the formatter is modelled as the
string accumulated so far. -/
def HtmlPage.fmt (p : HtmlPage) (acc : String) : String :=
  acc ++ p.to_html_string

/-- The string produced by formatting a page through its `Display`
implementation, starting from an empty formatter. -/
def HtmlPage.displayString (p : HtmlPage) : String :=
  p.fmt ""

/-- Modelled from the spec: the `HtmlContainer` convenience method
`add_header` of the missing `containers` module, under the documented
policy of §7 — a header level outside 1–6 is rejected immediately at the
builder call with a documented error, never coerced or clamped and never
deferred to render time; a valid level appends a header element to the
body via `add_html`. -/
def HtmlPage.add_header (p : HtmlPage) (level : Nat) (text : String) :
    Except String HtmlPage :=
  if 1 ≤ level ∧ level ≤ 6 then
    Except.ok (p.add_html (Element.header level text))
  else
    Except.error "header level must be between 1 and 6"

/-- Modelled from the spec: `add_paragraph` of the missing `containers`
module — appends a paragraph to the body via `add_html`. -/
def HtmlPage.add_paragraph (p : HtmlPage) (text : String) : HtmlPage :=
  p.add_html (Element.paragraph text)

/-- Modelled from the spec: `add_image` of the missing `containers`
module — appends an image to the body via `add_html`. -/
def HtmlPage.add_image (p : HtmlPage) (src alt : String) : HtmlPage :=
  p.add_html (Element.image src alt)

/-- Modelled from the spec: `add_container` of the missing `containers`
module — appends a container to the body via `add_html`. -/
def HtmlPage.add_container (p : HtmlPage) (ctype : ContainerType)
    (attrs : List (String × String)) (children : List Element) : HtmlPage :=
  p.add_html (Element.container ctype attrs children)

/-- Head-scoped element variants per the spec's taxonomy: title, meta,
link, style; every other variant is body-scoped. -/
def Element.isHeadScoped : Element → Bool
  | .title _ => true
  | .meta _ _ => true
  | .link _ _ => true
  | .style _ => true
  | _ => false

/-- Well-scoped page: every head element is head-scoped and every body
element is body-scoped. -/
def HtmlPage.wellScoped (p : HtmlPage) : Prop :=
  p.head.all Element.isHeadScoped = true
    ∧ p.body.all (fun e => !e.isHeadScoped) = true

/-- One public builder call on a page, as issuable through the library's
public interface (`add_title` from `src/src/lib.rs`; the rest are the
spec-modelled `HtmlContainer` convenience methods). -/
inductive BuilderOp where
  | addTitle (text : String)
  | addHeader (level : Nat) (text : String)
  | addParagraph (text : String)
  | addImage (src alt : String)
  | addContainer (ctype : ContainerType) (attrs : List (String × String))
      (children : List Element)

/-- Apply one builder call to a page. -/
def applyOp (p : HtmlPage) : BuilderOp → Except String HtmlPage
  | .addTitle t => Except.ok (p.add_title t)
  | .addHeader l t => p.add_header l t
  | .addParagraph t => Except.ok (p.add_paragraph t)
  | .addImage s a => Except.ok (p.add_image s a)
  | .addContainer ct al ch => Except.ok (p.add_container ct al ch)

/-- Apply a sequence of builder calls in order, as when chained. -/
def applyOps (p : HtmlPage) : List BuilderOp → Except String HtmlPage
  | [] => Except.ok p
  | op :: ops => (applyOp p op).bind (fun q => applyOps q ops)

/-- The elements one builder call appends to the head sequence. -/
def opHeadElems : BuilderOp → List Element
  | .addTitle t => [Element.title t]
  | _ => []

/-- The elements one builder call appends to the body sequence. -/
def opBodyElems : BuilderOp → List Element
  | .addTitle _ => []
  | .addHeader l t => [Element.header l t]
  | .addParagraph t => [Element.paragraph t]
  | .addImage s a => [Element.image s a]
  | .addContainer ct al ch => [Element.container ct al ch]

/-- The head elements a sequence of builder calls appends, in issue
order. -/
def headAdds : List BuilderOp → List Element
  | [] => []
  | op :: ops => opHeadElems op ++ headAdds ops

/-- The body elements a sequence of builder calls appends, in issue
order. -/
def bodyAdds : List BuilderOp → List Element
  | [] => []
  | op :: ops => opBodyElems op ++ bodyAdds ops

/-- The concatenation of the renderings of a list of elements, in
insertion order: the first element's rendering comes first, then the
second's, and so on. -/
def concatRenders : List Element → String
  | [] => ""
  | e :: es => e.to_html_string ++ concatRenders es

theorem string_append_empty (s : String) : s ++ "" = s := by
  cases s with
  | mk l => show String.mk (l ++ []) = String.mk l; rw [List.append_nil]

theorem string_empty_append (s : String) : "" ++ s = s := by
  cases s with
  | mk l => rfl

theorem string_append_assoc (a b c : String) : a ++ b ++ c = a ++ (b ++ c) := by
  cases a with
  | mk la =>
    cases b with
    | mk lb =>
      cases c with
      | mk lc => show String.mk _ = String.mk _; rw [List.append_assoc]

theorem foldl_append_concatRenders (l : List Element) (acc : String) :
    (l.map Element.to_html_string).foldl (fun a n => a ++ n) acc
      = acc ++ concatRenders l := by
  induction l generalizing acc with
  | nil => simp [concatRenders, string_append_empty]
  | cons e es ih =>
    simp only [List.map, List.foldl, concatRenders]
    rw [ih, string_append_assoc]

theorem renderFold_eq_concatRenders (l : List Element) :
    renderFold l = concatRenders l := by
  rw [renderFold, foldl_append_concatRenders, string_empty_append]

theorem mem_escapeChar (b : Bool) (x : Char) :
    ∀ c ∈ escapeChar b x, c ≠ '<' ∧ c ≠ '>' ∧ (b = true → c ≠ '"') := by
  intro c hc
  simp only [escapeChar] at hc
  split_ifs at hc with h1 h2 h3 h4
  · fin_cases hc <;> exact ⟨by decide, by decide, fun _ => by decide⟩
  · fin_cases hc <;> exact ⟨by decide, by decide, fun _ => by decide⟩
  · fin_cases hc <;> exact ⟨by decide, by decide, fun _ => by decide⟩
  · fin_cases hc <;> exact ⟨by decide, by decide, fun _ => by decide⟩
  · simp only [List.mem_singleton] at hc
    subst hc
    exact ⟨h2, h3, fun hb hq => h4 ⟨hb, hq⟩⟩

theorem mem_escapeList (b : Bool) (l : List Char) :
    ∀ c ∈ escapeList b l, c ≠ '<' ∧ c ≠ '>' ∧ (b = true → c ≠ '"') := by
  induction l with
  | nil => intro c hc; simp [escapeList] at hc
  | cons x xs ih =>
    intro c hc
    simp only [escapeList, List.mem_append] at hc
    rcases hc with h | h
    · exact mem_escapeChar b x c h
    · exact ih c h

/-- C4: for every text value inserted through a non-raw variant, rendering
escapes `&`, `<`, `>` (and `"` in attribute contexts) exactly once: the
escaped output never contains a raw `<`, `>` (nor `"` for attribute
values); the rendering of a paragraph applies the escaping exactly once to
the verbatim-stored text (so it is never double-escaped), and a raw
variant passes through without any escaping. -/
theorem escaping_no_unescaped_markup (s : String) :
    '<' ∉ (escapeText s).data ∧ '>' ∉ (escapeText s).data
      ∧ '<' ∉ (escapeAttr s).data ∧ '>' ∉ (escapeAttr s).data
      ∧ '"' ∉ (escapeAttr s).data
      ∧ (Element.paragraph s).to_html_string = "<p>" ++ escapeText s ++ "</p>"
      ∧ (Element.raw s).to_html_string = s := by
  refine ⟨?_, ?_, ?_, ?_, ?_, ?_, ?_⟩
  · exact fun h => (mem_escapeList false s.data '<' h).1 rfl
  · exact fun h => (mem_escapeList false s.data '>' h).2.1 rfl
  · exact fun h => (mem_escapeList true s.data '<' h).1 rfl
  · exact fun h => (mem_escapeList true s.data '>' h).2.1 rfl
  · exact fun h => (mem_escapeList true s.data '"' h).2.2 rfl rfl
  · simp [Element.to_html_string]
  · simp [Element.to_html_string]

/-- C1: for every `HtmlPage`, `to_html_string` concatenates the renderings
of the head elements in insertion order inside `<head>...</head>`, the
renderings of the body elements in insertion order inside
`<body>...</body>`, and wraps the whole in the exact literal envelope
`<!DOCTYPE html><html>...</html>` with no attributes on `<html>`. -/
theorem to_html_string_envelope (p : HtmlPage) :
    p.to_html_string
      = "<!DOCTYPE html><html><head>" ++ concatRenders p.head
          ++ "</head><body>" ++ concatRenders p.body ++ "</body></html>" := by
  rw [HtmlPage.to_html_string, renderFold_eq_concatRenders,
    renderFold_eq_concatRenders]

/-- C2: rendering a freshly created empty page — `HtmlPage::new()`
followed by `to_html_string()` — returns exactly
`<!DOCTYPE html><html><head></head><body></body></html>`. -/
theorem new_renders_empty_envelope :
    HtmlPage.new.to_html_string
      = "<!DOCTYPE html><html><head></head><body></body></html>" := by
  rfl

/-- C3: for every `HtmlPage` and every text string, `add_title` appends
exactly one `Title` element to the head sequence, always succeeds (it is a
total function with no failure mode), stores the text verbatim in the
tree, and leaves the body untouched, returning the page for further
chaining. -/
theorem add_title_appends_one_title (p : HtmlPage) (t : String) :
    (p.add_title t).head = p.head ++ [Element.title t]
      ∧ (p.add_title t).body = p.body :=
  ⟨rfl, rfl⟩

/-- C7: for every validly constructed tree, `to_html_string` is total — it
always terminates and produces a string (witnessed here by the rendering
function being a total function whose result always carries the document
envelope), and no error value originates from rendering. -/
theorem to_html_string_total (p : HtmlPage) :
    ∃ s : String, p.to_html_string = "<!DOCTYPE html><html><head>" ++ s :=
  ⟨renderFold p.head ++ ("</head><body>"
      ++ (renderFold p.body ++ "</body></html>")), by
    rw [HtmlPage.to_html_string, string_append_assoc, string_append_assoc,
      string_append_assoc]⟩

/-- C9: for every `HtmlPage`, formatting it via the `Display`
implementation produces exactly the same string as calling
`to_html_string` on it. -/
theorem display_eq_to_html_string (p : HtmlPage) :
    p.displayString = p.to_html_string := by
  rw [HtmlPage.displayString, HtmlPage.fmt, string_empty_append]

/-- C10: `HtmlPage::default()` produces the same page as
`HtmlPage::new()` — both have an empty head sequence and an empty body
sequence, and render to the same string. -/
theorem default_eq_new :
    HtmlPage.default = HtmlPage.new
      ∧ HtmlPage.default.head = []
      ∧ HtmlPage.default.body = []
      ∧ HtmlPage.default.to_html_string = HtmlPage.new.to_html_string :=
  ⟨rfl, rfl, rfl, rfl⟩

theorem add_title_wellScoped {p : HtmlPage} (t : String)
    (hp : p.wellScoped) : (p.add_title t).wellScoped := by
  obtain ⟨h1, h2⟩ := hp
  refine ⟨?_, h2⟩
  simp [HtmlPage.add_title, List.all_append, h1, Element.isHeadScoped]

theorem add_html_wellScoped {p : HtmlPage} {e : Element}
    (hp : p.wellScoped) (he : e.isHeadScoped = false) :
    (p.add_html e).wellScoped := by
  obtain ⟨h1, h2⟩ := hp
  refine ⟨h1, ?_⟩
  simp [HtmlPage.add_html, List.all_append, h2, he]

theorem applyOp_wellScoped {p q : HtmlPage} {op : BuilderOp}
    (hp : p.wellScoped) (h : applyOp p op = Except.ok q) : q.wellScoped := by
  cases op with
  | addTitle t =>
    simp only [applyOp, Except.ok.injEq] at h
    exact h ▸ add_title_wellScoped t hp
  | addHeader l t =>
    simp only [applyOp, HtmlPage.add_header] at h
    split at h
    · simp only [Except.ok.injEq] at h
      exact h ▸ add_html_wellScoped hp rfl
    · exact absurd h (by simp)
  | addParagraph t =>
    simp only [applyOp, Except.ok.injEq] at h
    exact h ▸ add_html_wellScoped hp rfl
  | addImage s a =>
    simp only [applyOp, Except.ok.injEq] at h
    exact h ▸ add_html_wellScoped hp rfl
  | addContainer ct al ch =>
    simp only [applyOp, Except.ok.injEq] at h
    exact h ▸ add_html_wellScoped hp rfl

/-- C5: head and body content are never cross-mixed — every sequence of
public builder operations, applied to a well-scoped page, yields a
well-scoped page: no head-only element (Title, Meta, Link, Style) ever
lands in the body sequence and no body-scoped element ever lands in the
head sequence, because the only head-inserting operation appends a Title
and every body-inserting operation appends a body-scoped element. -/
theorem head_body_never_cross_mixed :
    ∀ (ops : List BuilderOp) (p q : HtmlPage),
      p.wellScoped → applyOps p ops = Except.ok q → q.wellScoped := by
  intro ops
  induction ops with
  | nil =>
    intro p q hp h
    simp only [applyOps, Except.ok.injEq] at h
    exact h ▸ hp
  | cons op ops ih =>
    intro p q hp h
    simp only [applyOps] at h
    cases hop : applyOp p op with
    | error e => rw [hop] at h; exact absurd h (by simp [Except.bind])
    | ok r =>
      rw [hop] at h
      simp only [Except.bind] at h
      exact ih r q (applyOp_wellScoped hp hop) h

/-- Closed witness for C5: a concrete run of the builder on a fresh page
stays well-scoped. -/
theorem head_body_never_cross_mixed_witness :
    HtmlPage.wellScoped ⟨[Element.title "a"], [Element.paragraph "b"]⟩ :=
  head_body_never_cross_mixed
    [BuilderOp.addTitle "a", BuilderOp.addParagraph "b"]
    HtmlPage.new ⟨[Element.title "a"], [Element.paragraph "b"]⟩
    ⟨rfl, rfl⟩ rfl

theorem applyOps_append (ops1 : List BuilderOp) :
    ∀ (p : HtmlPage) (ops2 : List BuilderOp),
      applyOps p (ops1 ++ ops2)
        = (applyOps p ops1).bind (fun q => applyOps q ops2) := by
  induction ops1 with
  | nil => intro p ops2; rfl
  | cons op ops ih =>
    intro p ops2
    simp only [List.cons_append, applyOps]
    cases applyOp p op with
    | error e => rfl
    | ok r => simp only [Except.bind]; exact ih r ops2

theorem applyOp_adds {p q : HtmlPage} {op : BuilderOp}
    (h : applyOp p op = Except.ok q) :
    q.head = p.head ++ opHeadElems op
      ∧ q.body = p.body ++ opBodyElems op := by
  cases op with
  | addTitle t =>
    simp only [applyOp, Except.ok.injEq] at h
    subst h
    exact ⟨rfl, (List.append_nil p.body).symm⟩
  | addHeader l t =>
    simp only [applyOp, HtmlPage.add_header] at h
    split at h
    · simp only [Except.ok.injEq] at h
      subst h
      exact ⟨(List.append_nil p.head).symm, rfl⟩
    · exact absurd h (by simp)
  | addParagraph t =>
    simp only [applyOp, Except.ok.injEq] at h
    subst h
    exact ⟨(List.append_nil p.head).symm, rfl⟩
  | addImage s a =>
    simp only [applyOp, Except.ok.injEq] at h
    subst h
    exact ⟨(List.append_nil p.head).symm, rfl⟩
  | addContainer ct al ch =>
    simp only [applyOp, Except.ok.injEq] at h
    subst h
    exact ⟨(List.append_nil p.head).symm, rfl⟩

theorem applyOps_adds (ops : List BuilderOp) :
    ∀ (p q : HtmlPage), applyOps p ops = Except.ok q →
      q.head = p.head ++ headAdds ops ∧ q.body = p.body ++ bodyAdds ops := by
  induction ops with
  | nil =>
    intro p q h
    simp only [applyOps, Except.ok.injEq] at h
    subst h
    exact ⟨(List.append_nil p.head).symm, (List.append_nil p.body).symm⟩
  | cons op ops ih =>
    intro p q h
    simp only [applyOps] at h
    cases hop : applyOp p op with
    | error e => rw [hop] at h; exact absurd h (by simp [Except.bind])
    | ok r =>
      rw [hop] at h
      simp only [Except.bind] at h
      obtain ⟨hh, hb⟩ := ih r q h
      obtain ⟨gh, gb⟩ := applyOp_adds hop
      constructor
      · rw [hh, gh, List.append_assoc]; rfl
      · rw [hb, gb, List.append_assoc]; rfl

/-- C6: chained builder calls are equivalent to issuing the same calls
sequentially — applying a concatenated call sequence equals applying the
first part and then the second on the result — and the head and body
sequences of the resulting tree extend the original ones by exactly the
elements the calls insert, in the order the calls were issued. -/
theorem chaining_equals_sequential_and_preserves_order :
    (∀ (p : HtmlPage) (ops1 ops2 : List BuilderOp),
        applyOps p (ops1 ++ ops2)
          = (applyOps p ops1).bind (fun q => applyOps q ops2))
      ∧ (∀ (ops : List BuilderOp) (p q : HtmlPage),
          applyOps p ops = Except.ok q →
            q.head = p.head ++ headAdds ops
              ∧ q.body = p.body ++ bodyAdds ops) :=
  ⟨fun p ops1 ops2 => applyOps_append ops1 p ops2, applyOps_adds⟩

/-- Closed witness for C6: the page built by `addTitle "A"` then
`addHeader 1 "B"` on a fresh page has exactly those insertions, in issue
order. -/
theorem chaining_equals_sequential_witness :
    (HtmlPage.mk [Element.title "A"] [Element.header 1 "B"]).head
        = HtmlPage.new.head
            ++ headAdds [BuilderOp.addTitle "A", BuilderOp.addHeader 1 "B"]
      ∧ (HtmlPage.mk [Element.title "A"] [Element.header 1 "B"]).body
        = HtmlPage.new.body
            ++ bodyAdds [BuilderOp.addTitle "A", BuilderOp.addHeader 1 "B"] :=
  chaining_equals_sequential_and_preserves_order.2
    [BuilderOp.addTitle "A", BuilderOp.addHeader 1 "B"]
    HtmlPage.new (HtmlPage.mk [Element.title "A"] [Element.header 1 "B"]) rfl

/-- C8: a header level outside 1–6 is rejected by the `add_header` builder
call itself, at construction time, with the documented error message — no
page is produced, nothing is clamped or coerced, and detection is not
deferred to render time. -/
theorem add_header_rejects_out_of_range (p : HtmlPage) (level : Nat)
    (text : String) (h : level < 1 ∨ 6 < level) :
    p.add_header level text
      = Except.error "header level must be between 1 and 6" := by
  rw [HtmlPage.add_header, if_neg]
  omega

/-- Closed witness for C8: level 7 is rejected on a fresh page. -/
theorem add_header_rejects_out_of_range_witness :
    (7 < 1 ∨ 6 < 7)
      ∧ HtmlPage.new.add_header 7 "x"
          = Except.error "header level must be between 1 and 6" :=
  ⟨Or.inr (by decide),
    add_header_rejects_out_of_range HtmlPage.new 7 "x" (Or.inr (by decide))⟩

end BuildHtml
